import Mathlib

/-!
Verification of the orbital_service propagation core (propagator.rs, service.rs,
main.rs) against its natural-language specification.

The floating-point arithmetic of the source is embedded over the real numbers.
The external SGP4 crate (`sgp4::Elements`, `sgp4::Constants`) and the chrono
epoch conversion are third-party dependencies, not code of this repository;
they enter the embedding as explicit parameters: an abstract `Elements` type,
an `Except`-valued parser and initializer, and an `Sgp4Constants` record whose
`propagateAt` field maps minutes-from-epoch to an optional prediction.
Everything else (GMST, frame rotations, geodesy, look angles, the trajectory
loop, the visibility state machine, and the request validation of the two
handlers) is transcribed from the source.
-/

noncomputable section

open Real

/-- Two-argument arctangent of the source's `f64::atan2(self = y, other = x)`,
transcribed to real numbers (IEEE atan2 branch structure; at the origin the
result is 0, matching `atan2(+0.0, +0.0)`). -/
def atan2 (y x : ℝ) : ℝ :=
  if 0 < x then arctan (y / x)
  else if x < 0 then
    (if 0 ≤ y then arctan (y / x) + π else arctan (y / x) - π)
  else if 0 < y then π / 2
  else if y < 0 then -(π / 2)
  else 0

/-- Truncation toward zero, the rounding used by Rust's `%` remainder on `f64`. -/
def realTrunc (x : ℝ) : ℝ :=
  if 0 ≤ x then (⌊x⌋ : ℝ) else (⌈x⌉ : ℝ)

/-- Rust's `%` remainder on `f64`: `x - y * (x / y).trunc()`. -/
def rustRem (x y : ℝ) : ℝ :=
  x - y * realTrunc (x / y)

/-- `f64::to_radians`. -/
def toRadians (d : ℝ) : ℝ :=
  d * (π / 180)

/-- `f64::to_degrees`. -/
def toDegrees (r : ℝ) : ℝ :=
  r * (180 / π)

/-- WGS84 equatorial radius in km (`let a = 6378.137` in the source). -/
def aWgs : ℝ := 6378.137

/-- WGS84 flattening (`let f = 1.0 / 298.257223563`). -/
def fWgs : ℝ := 1 / 298.257223563

/-- WGS84 first eccentricity squared (`let e2 = 2.0 * f - f * f`). -/
def e2Wgs : ℝ := 2 * fWgs - fWgs * fWgs

/-- `calculate_gmst` from propagator.rs: Greenwich Mean Sidereal Time in radians. -/
def calculate_gmst (timestamp_unix : ℤ) : ℝ :=
  let jd : ℝ := 2440587.5 + (timestamp_unix : ℝ) / 86400.0
  let t : ℝ := (jd - 2451545.0) / 36525.0
  let gmst_deg : ℝ :=
    280.46061837 + 360.98564736629 * (jd - 2451545.0)
      + 0.000387933 * t * t - t * t * t / 38710000.0
  let gmst_normalized : ℝ := rustRem (rustRem gmst_deg 360 + 360) 360
  toRadians gmst_normalized

/-- `GeodeticCoords` from propagator.rs. -/
structure GeodeticCoords where
  latitude_deg : ℝ
  longitude_deg : ℝ
  altitude_km : ℝ

/-- `geodetic_to_ecef` from propagator.rs. -/
def geodetic_to_ecef (lat_deg lon_deg alt_km : ℝ) : ℝ × ℝ × ℝ :=
  let lat_rad := toRadians lat_deg
  let lon_rad := toRadians lon_deg
  let sin_lat := sin lat_rad
  let cos_lat := cos lat_rad
  let sin_lon := sin lon_rad
  let cos_lon := cos lon_rad
  let n := aWgs / Real.sqrt (1 - e2Wgs * sin_lat * sin_lat)
  ((n + alt_km) * cos_lat * cos_lon,
   (n + alt_km) * cos_lat * sin_lon,
   (n * (1 - e2Wgs) + alt_km) * sin_lat)

/-- `calculate_look_angles` from propagator.rs: (elevation_deg, azimuth_deg) of a
satellite ECI position as seen from a ground station (ECEF position plus geodetic
latitude/longitude), at a Unix timestamp. -/
def calculate_look_angles (sat_eci gs_ecef : ℝ × ℝ × ℝ)
    (gs_lat_deg gs_lon_deg : ℝ) (timestamp_unix : ℤ) : ℝ × ℝ :=
  let gmst := calculate_gmst timestamp_unix
  let cos_gmst := cos gmst
  let sin_gmst := sin gmst
  let sat_ecef : ℝ × ℝ × ℝ :=
    (sat_eci.1 * cos_gmst + sat_eci.2.1 * sin_gmst,
     -sat_eci.1 * sin_gmst + sat_eci.2.1 * cos_gmst,
     sat_eci.2.2)
  let range_x := sat_ecef.1 - gs_ecef.1
  let range_y := sat_ecef.2.1 - gs_ecef.2.1
  let range_z := sat_ecef.2.2 - gs_ecef.2.2
  let lat_rad := toRadians gs_lat_deg
  let lon_rad := toRadians gs_lon_deg
  let sin_lat := sin lat_rad
  let cos_lat := cos lat_rad
  let sin_lon := sin lon_rad
  let cos_lon := cos lon_rad
  let s := sin_lat * cos_lon * range_x + sin_lat * sin_lon * range_y - cos_lat * range_z
  let e := -sin_lon * range_x + cos_lon * range_y
  let z := cos_lat * cos_lon * range_x + cos_lat * sin_lon * range_y + sin_lat * range_z
  let range := Real.sqrt (s * s + e * e + z * z)
  let elevation_deg := toDegrees (arcsin (z / range))
  let azimuth_deg := toDegrees (atan2 (-s) e)
  (elevation_deg, if azimuth_deg < 0 then azimuth_deg + 360 else azimuth_deg)

/-- One step of the iterative latitude refinement inside `eci_to_geodetic`:
`latitude_rad = (z_ecef + e2 * n * sin_lat).atan2(p)`. -/
def latStep (p z_ecef lat : ℝ) : ℝ :=
  atan2 (z_ecef + e2Wgs * (aWgs / Real.sqrt (1 - e2Wgs * sin lat * sin lat)) * sin lat) p

/-- The `for _ in 0..10` loop of `eci_to_geodetic`. -/
def latIterate (p z_ecef : ℝ) : ℕ → ℝ → ℝ
  | 0, lat => lat
  | n + 1, lat => latIterate p z_ecef n (latStep p z_ecef lat)

/-- `eci_to_geodetic` from propagator.rs. -/
def eci_to_geodetic (position_km : ℝ × ℝ × ℝ) (timestamp_unix : ℤ) : GeodeticCoords :=
  let gmst := calculate_gmst timestamp_unix
  let x_ecef := position_km.1 * cos gmst + position_km.2.1 * sin gmst
  let y_ecef := -position_km.1 * sin gmst + position_km.2.1 * cos gmst
  let z_ecef := position_km.2.2
  let longitude_deg := toDegrees (atan2 y_ecef x_ecef)
  let p := Real.sqrt (x_ecef * x_ecef + y_ecef * y_ecef)
  let latitude_rad := latIterate p z_ecef 10 (atan2 z_ecef p)
  let latitude_deg := toDegrees latitude_rad
  let sin_lat := sin latitude_rad
  let cos_lat := cos latitude_rad
  let n := aWgs / Real.sqrt (1 - e2Wgs * sin_lat * sin_lat)
  let altitude_km :=
    if 1e-10 < |cos_lat| then p / cos_lat - n
    else |z_ecef| / |sin_lat| - n * (1 - e2Wgs)
  ⟨latitude_deg, longitude_deg, altitude_km⟩

/-- The position/velocity pair returned by the external crate's
`Constants::propagate` (TEME km, km/s). -/
structure Prediction where
  position : ℝ × ℝ × ℝ
  velocity : ℝ × ℝ × ℝ

/-- The external SGP4 crate's `Constants`, abstracted through the only method the
source calls on it: `propagate(minutes_from_epoch)`, fallible (`Option`, with
`none` standing for `Err`). -/
structure Sgp4Constants where
  propagateAt : ℝ → Option Prediction

/-- `PropagationResult` from propagator.rs. -/
structure PropagationResult where
  position_km : ℝ × ℝ × ℝ
  velocity_km_s : ℝ × ℝ × ℝ
  geodetic : GeodeticCoords

/-- `PropagationError` from propagator.rs. -/
inductive PropagationError where
  | tleParseError : String → PropagationError
  | propagatorError : String → PropagationError
  | invalidTimestamp : String → PropagationError
deriving DecidableEq

/-- The body of one iteration of the `while timestamp <= end_unix` loop of
`propagate_trajectory`: propagate at `(timestamp - tle_epoch_unix) / 60.0`
minutes and on success push `(timestamp, PropagationResult)`; on failure the
sample is skipped. -/
def sampleResult (constants : Sgp4Constants) (tle_epoch_unix : ℝ) (timestamp : ℤ) :
    Option (ℤ × PropagationResult) :=
  match constants.propagateAt (((timestamp : ℝ) - tle_epoch_unix) / 60.0) with
  | some prediction =>
      some (timestamp,
        ⟨prediction.position, prediction.velocity,
         eci_to_geodetic prediction.position timestamp⟩)
  | none => none

/-- The push performed at each sample of the trajectory loop: append the
sample's result on success, keep the accumulator unchanged on failure (the
source logs and skips). -/
def optPush {β γ : Type} (g : β → Option γ) (acc : List γ) (b : β) : List γ :=
  match g b with
  | some r => acc ++ [r]
  | none => acc

/-- One iteration of the trajectory sampling loop as a state transformer on
(current timestamp, results accumulated so far): run the body at the current
timestamp, then `timestamp += step_seconds`. -/
def trajStep (constants : Sgp4Constants) (tle_epoch_unix : ℝ) (step_seconds : ℤ) :
    ℤ × List (ℤ × PropagationResult) → ℤ × List (ℤ × PropagationResult) :=
  fun st =>
    (st.1 + step_seconds,
     optPush (sampleResult constants tle_epoch_unix) st.2 st.1)

/-- Number of iterations the `while timestamp <= end_unix; timestamp += step`
loop performs when `step_seconds ≥ 1` (proved below); `Int.tdiv` is Rust's
truncating `i64` division. -/
def tripCount (start_unix end_unix step_seconds : ℤ) : ℕ :=
  if start_unix ≤ end_unix then (Int.tdiv (end_unix - start_unix) step_seconds).toNat + 1
  else 0

/-- The ascending grid of timestamps the loop visits:
`start, start + step, ..., start + step * (tripCount - 1)`. -/
def intGrid (start_unix end_unix step_seconds : ℤ) : List ℤ :=
  (List.range (tripCount start_unix end_unix step_seconds)).map
    (fun i : ℕ => start_unix + step_seconds * (i : ℤ))

/-- The accumulated results of the trajectory loop, obtained by iterating
`trajStep` from `(start_unix, [])` for the loop's trip count. -/
def trajRun (constants : Sgp4Constants) (tle_epoch_unix : ℝ)
    (start_unix end_unix step_seconds : ℤ) : List (ℤ × PropagationResult) :=
  ((trajStep constants tle_epoch_unix step_seconds)^[tripCount start_unix end_unix step_seconds]
    (start_unix, [])).2

/-- `propagate_trajectory` from propagator.rs. The external TLE parser
(`Elements::from_tle`) and initializer (`Constants::from_elements`) and the
chrono-based `tle_epoch_to_unix` enter as parameters; the error mapping onto
`PropagationError` and the sampling loop are the source's. -/
def propagate_trajectory {Elements : Type} (from_tle : Except String Elements)
    (from_elements : Elements → Except String Sgp4Constants)
    (tle_epoch_to_unix : Elements → ℝ)
    (start_unix end_unix step_seconds : ℤ) :
    Except PropagationError (List (ℤ × PropagationResult)) :=
  match from_tle with
  | .error e => .error (.tleParseError e)
  | .ok elements =>
    match from_elements elements with
    | .error e => .error (.propagatorError e)
    | .ok constants =>
        .ok (trajRun constants (tle_epoch_to_unix elements) start_unix end_unix step_seconds)

/-- `GroundStation` from propagator.rs. -/
structure GroundStation where
  id : String
  name : String
  latitude_deg : ℝ
  longitude_deg : ℝ
  altitude_m : ℝ
  min_elevation_deg : ℝ

/-- `VisibilityPass` from propagator.rs. -/
structure VisibilityPass where
  aos_timestamp : ℤ
  los_timestamp : ℤ
  tca_timestamp : ℤ
  max_elevation_deg : ℝ
  aos_azimuth_deg : ℝ
  los_azimuth_deg : ℝ
  duration_seconds : ℤ

/-- The mutable locals of `calculate_visibility_passes`: `in_pass`,
`current_pass_start`, `current_pass_start_azimuth`, `max_elevation`,
`tca_timestamp`, and the `passes` vector. -/
structure VisState where
  in_pass : Bool
  current_pass_start : ℤ
  current_pass_start_azimuth : ℝ
  max_elevation : ℝ
  tca_timestamp : ℤ
  passes : List VisibilityPass

/-- The initial values of the visibility loop's locals. -/
def visInit : VisState :=
  ⟨false, 0, 0.0, 0.0, 0, []⟩

/-- The body of one iteration of the visibility loop at a sample `timestamp`:
on propagation success, compute look angles and run the OUT/IN state machine;
on failure the sample is skipped. On the IN-to-OUT transition the end azimuth is
re-calculated from the current prediction position at `timestamp - step_seconds`. -/
def visStep (constants : Sgp4Constants) (tle_epoch_unix : ℝ) (gs : GroundStation)
    (gs_ecef : ℝ × ℝ × ℝ) (step_seconds timestamp : ℤ) (st : VisState) : VisState :=
  match constants.propagateAt (((timestamp : ℝ) - tle_epoch_unix) / 60.0) with
  | none => st
  | some prediction =>
    let ea := calculate_look_angles prediction.position gs_ecef
      gs.latitude_deg gs.longitude_deg timestamp
    let above_horizon := gs.min_elevation_deg ≤ ea.1
    if above_horizon ∧ st.in_pass = false then
      { in_pass := true
        current_pass_start := timestamp
        current_pass_start_azimuth := ea.2
        max_elevation := ea.1
        tca_timestamp := timestamp
        passes := st.passes }
    else if above_horizon ∧ st.in_pass = true then
      (if st.max_elevation < ea.1 then
        { st with max_elevation := ea.1, tca_timestamp := timestamp }
      else st)
    else if ¬above_horizon ∧ st.in_pass = true then
      { st with
        in_pass := false
        passes := st.passes ++
          [⟨st.current_pass_start, timestamp, st.tca_timestamp, st.max_elevation,
            st.current_pass_start_azimuth,
            (calculate_look_angles prediction.position gs_ecef
              gs.latitude_deg gs.longitude_deg (timestamp - step_seconds)).2,
            timestamp - st.current_pass_start⟩] }
    else st

/-- One iteration of the visibility loop as a state transformer on
(current timestamp, `VisState`); the source fixes `step_seconds = 30`. -/
def visLoopStep (constants : Sgp4Constants) (tle_epoch_unix : ℝ) (gs : GroundStation)
    (gs_ecef : ℝ × ℝ × ℝ) : ℤ × VisState → ℤ × VisState :=
  fun st => (st.1 + 30, visStep constants tle_epoch_unix gs gs_ecef 30 st.1 st.2)

/-- The state of the visibility loop after it exits. -/
def visRun (constants : Sgp4Constants) (tle_epoch_unix : ℝ) (gs : GroundStation)
    (gs_ecef : ℝ × ℝ × ℝ) (start_unix end_unix : ℤ) : VisState :=
  ((visLoopStep constants tle_epoch_unix gs gs_ecef)^[tripCount start_unix end_unix 30]
    (start_unix, visInit)).2

/-- The pass list produced by `calculate_visibility_passes` after the loop: if a
pass is still open at the end of the window, one final pass is pushed with
`los_timestamp = end_unix`, `los_azimuth_deg = 0.0` and
`duration = end_unix - current_pass_start`. -/
def visPasses (constants : Sgp4Constants) (tle_epoch_unix : ℝ) (gs : GroundStation)
    (gs_ecef : ℝ × ℝ × ℝ) (start_unix end_unix : ℤ) : List VisibilityPass :=
  let st := visRun constants tle_epoch_unix gs gs_ecef start_unix end_unix
  if st.in_pass = true then
    st.passes ++
      [⟨st.current_pass_start, end_unix, st.tca_timestamp, st.max_elevation,
        st.current_pass_start_azimuth, 0.0, end_unix - st.current_pass_start⟩]
  else st.passes

/-- `calculate_visibility_passes` from propagator.rs; the ground station ECEF
position is computed once with the altitude converted from metres to km. -/
def calculate_visibility_passes {Elements : Type} (from_tle : Except String Elements)
    (from_elements : Elements → Except String Sgp4Constants)
    (tle_epoch_to_unix : Elements → ℝ)
    (ground_station : GroundStation) (start_unix end_unix : ℤ) :
    Except PropagationError (List VisibilityPass) :=
  match from_tle with
  | .error e => .error (.tleParseError e)
  | .ok elements =>
    match from_elements elements with
    | .error e => .error (.propagatorError e)
    | .ok constants =>
        .ok (visPasses constants (tle_epoch_to_unix elements) ground_station
          (geodetic_to_ecef ground_station.latitude_deg ground_station.longitude_deg
            (ground_station.altitude_m / 1000.0))
          start_unix end_unix)

/-- The ways a trajectory request can be rejected before propagation, across the
gRPC handler (service.rs) and the HTTP handler (main.rs). -/
inductive TrajectoryRejection where
  | missingTle
  | stepNotPositive
  | endNotAfterStart
  | tooManyPoints
  | badTleLength
deriving DecidableEq

/-- The `TrajectoryRequest` of the gRPC service (service.rs); `tle` is an
optional message with two lines. -/
structure GrpcTrajectoryRequest where
  satellite_id : String
  tle : Option (String × String)
  start_timestamp_unix : ℤ
  end_timestamp_unix : ℤ
  step_seconds : ℤ

/-- The validation performed by the gRPC `propagate_trajectory` handler before
it calls the propagator: TLE presence, `step_seconds <= 0`,
`end <= start`, and `num_points > 10000` with
`num_points = (end - start) / step + 1` in `i64` arithmetic. -/
def grpcTrajectoryValidate (req : GrpcTrajectoryRequest) : Option TrajectoryRejection :=
  match req.tle with
  | none => some .missingTle
  | some _ =>
    if req.step_seconds ≤ 0 then some .stepNotPositive
    else if req.end_timestamp_unix ≤ req.start_timestamp_unix then some .endNotAfterStart
    else if 10000 <
        Int.tdiv (req.end_timestamp_unix - req.start_timestamp_unix) req.step_seconds + 1 then
      some .tooManyPoints
    else none

/-- The gRPC trajectory handler: validation first, then (and only then) the call
into `propagator::propagate_trajectory`. -/
def grpc_propagate_trajectory {Elements : Type} (from_tle : Except String Elements)
    (from_elements : Elements → Except String Sgp4Constants)
    (tle_epoch_to_unix : Elements → ℝ) (req : GrpcTrajectoryRequest) :
    Except TrajectoryRejection (Except PropagationError (List (ℤ × PropagationResult))) :=
  match grpcTrajectoryValidate req with
  | some r => .error r
  | none =>
      .ok (propagate_trajectory from_tle from_elements tle_epoch_to_unix
        req.start_timestamp_unix req.end_timestamp_unix req.step_seconds)

/-- The HTTP `TrajectoryRequest` of main.rs. -/
structure HttpTrajectoryRequest where
  satellite_id : String
  tle_line1 : String
  tle_line2 : String
  start_unix : ℤ
  end_unix : ℤ
  step_seconds : ℤ

/-- The validation performed by the HTTP `trajectory_handler` in main.rs before
it calls the propagator: TLE line lengths must be 69 and `end_unix` must exceed
`start_unix`; no other check is made. -/
def httpTrajectoryValidate (req : HttpTrajectoryRequest) : Option TrajectoryRejection :=
  if req.tle_line1.length ≠ 69 ∨ req.tle_line2.length ≠ 69 then some .badTleLength
  else if req.end_unix ≤ req.start_unix then some .endNotAfterStart
  else none

/-- The HTTP trajectory handler of main.rs: validation first, then the call into
`propagator::propagate_trajectory` with the request's raw `step_seconds`. -/
def trajectory_handler {Elements : Type} (from_tle : Except String Elements)
    (from_elements : Elements → Except String Sgp4Constants)
    (tle_epoch_to_unix : Elements → ℝ) (req : HttpTrajectoryRequest) :
    Except TrajectoryRejection (Except PropagationError (List (ℤ × PropagationResult))) :=
  match httpTrajectoryValidate req with
  | some r => .error r
  | none =>
      .ok (propagate_trajectory from_tle from_elements tle_epoch_to_unix
        req.start_unix req.end_unix req.step_seconds)

/-- The mathematical reduction of an angle in degrees into [0, 360), as the spec
words it ("reduce modulo 360 into [0,360)"). -/
def mod360 (x : ℝ) : ℝ :=
  x - 360 * (⌊x / 360⌋ : ℝ)

/-- The GMST computation as worded by the spec (C7): JD from the Unix timestamp,
Julian centuries T, the cubic polynomial in degrees, mathematical reduction
modulo 360 into [0,360), then conversion to radians. -/
def gmst_spec (timestamp_unix : ℤ) : ℝ :=
  toRadians (mod360
    (280.46061837 + 360.98564736629 * ((2440587.5 + (timestamp_unix : ℝ) / 86400.0) - 2451545.0)
      + 0.000387933 * (((2440587.5 + (timestamp_unix : ℝ) / 86400.0) - 2451545.0) / 36525.0) ^ 2
      - (((2440587.5 + (timestamp_unix : ℝ) / 86400.0) - 2451545.0) / 36525.0) ^ 3 / 38710000.0))

/-! ### Arithmetic helper lemmas -/

lemma realTrunc_of_nonneg {x : ℝ} (h : 0 ≤ x) : realTrunc x = (⌊x⌋ : ℝ) := by
  simp [realTrunc, h]

lemma realTrunc_of_neg {x : ℝ} (h : x < 0) : realTrunc x = (⌈x⌉ : ℝ) := by
  simp [realTrunc, not_le.mpr h]

lemma mod360_nonneg (x : ℝ) : 0 ≤ mod360 x := by
  have h := Int.floor_le (x / 360)
  have : (⌊x / 360⌋ : ℝ) * 360 ≤ x := by
    rw [← le_div_iff₀ (by norm_num : (0:ℝ) < 360)]
    exact h
  unfold mod360
  linarith

lemma mod360_lt (x : ℝ) : mod360 x < 360 := by
  have h := Int.lt_floor_add_one (x / 360)
  have : x < ((⌊x / 360⌋ : ℝ) + 1) * 360 := by
    rw [← div_lt_iff₀ (by norm_num : (0:ℝ) < 360)]
    exact h
  unfold mod360
  linarith

/-- The double-remainder normalization of the source,
`((x % 360) + 360) % 360` with Rust's sign-of-dividend remainder, agrees with
the mathematical reduction into [0, 360). -/
lemma rustRem_normalize (x : ℝ) : rustRem (rustRem x 360 + 360) 360 = mod360 x := by
  by_cases hx : 0 ≤ x
  · have h1 : rustRem x 360 = mod360 x := by
      unfold rustRem mod360
      rw [realTrunc_of_nonneg (by positivity)]
    rw [h1]
    have hm0 := mod360_nonneg x
    have hm1 := mod360_lt x
    have hfl : ⌊(mod360 x + 360) / 360⌋ = 1 := by
      rw [Int.floor_eq_iff]
      constructor
      · rw [le_div_iff₀ (by norm_num : (0:ℝ) < 360)]
        push_cast
        linarith
      · rw [div_lt_iff₀ (by norm_num : (0:ℝ) < 360)]
        push_cast
        linarith
    unfold rustRem
    rw [realTrunc_of_nonneg (by positivity), hfl]
    push_cast
    ring
  · push_neg at hx
    have h1 : rustRem x 360 = x - 360 * (⌈x / 360⌉ : ℝ) := by
      unfold rustRem
      rw [realTrunc_of_neg (div_neg_of_neg_of_pos hx (by norm_num))]
    rw [h1]
    have hceil_le : x / 360 ≤ (⌈x / 360⌉ : ℝ) := Int.le_ceil _
    have hceil_lt : (⌈x / 360⌉ : ℝ) < x / 360 + 1 := Int.ceil_lt_add_one _
    have hr_le : x - 360 * (⌈x / 360⌉ : ℝ) ≤ 0 := by
      have : x ≤ 360 * (⌈x / 360⌉ : ℝ) := by
        rw [← div_le_iff₀' (by norm_num : (0:ℝ) < 360)]
        exact hceil_le
      linarith
    have hr_gt : -360 < x - 360 * (⌈x / 360⌉ : ℝ) := by
      have : 360 * (⌈x / 360⌉ : ℝ) < x + 360 := by
        have := mul_lt_mul_of_pos_left hceil_lt (by norm_num : (0:ℝ) < 360)
        calc 360 * (⌈x / 360⌉ : ℝ) < 360 * (x / 360 + 1) := this
        _ = x + 360 := by ring
      linarith
    by_cases hr0 : x - 360 * (⌈x / 360⌉ : ℝ) = 0
    · have hdiv : x / 360 = ((⌈x / 360⌉ : ℤ) : ℝ) := by
        field_simp
        linarith
      have hfloor : ⌊x / 360⌋ = ⌈x / 360⌉ := by
        rw [hdiv, Int.floor_intCast, Int.ceil_intCast]
      rw [hr0]
      unfold rustRem mod360
      rw [realTrunc_of_nonneg (by norm_num : (0:ℝ) ≤ (0 + 360) / 360), hfloor]
      have h1' : ⌊((0:ℝ) + 360) / 360⌋ = 1 := by norm_num
      rw [h1']
      push_cast
      linarith
    · have hrneg : x - 360 * (⌈x / 360⌉ : ℝ) < 0 := lt_of_le_of_ne hr_le hr0
      have hfl0 : ⌊(x - 360 * (⌈x / 360⌉ : ℝ) + 360) / 360⌋ = 0 := by
        rw [Int.floor_eq_iff]
        constructor
        · rw [le_div_iff₀ (by norm_num : (0:ℝ) < 360)]
          push_cast
          linarith
        · rw [div_lt_iff₀ (by norm_num : (0:ℝ) < 360)]
          push_cast
          linarith
      have hfloor : ⌊x / 360⌋ = ⌈x / 360⌉ - 1 := by
        rw [Int.floor_eq_iff]
        constructor
        · push_cast
          rw [le_div_iff₀ (by norm_num : (0:ℝ) < 360)]
          linarith
        · push_cast
          rw [div_lt_iff₀ (by norm_num : (0:ℝ) < 360)]
          linarith
      unfold rustRem mod360
      rw [realTrunc_of_nonneg (by linarith [hr_gt] : (0:ℝ) ≤ (x - 360 * (⌈x / 360⌉ : ℝ) + 360) / 360), hfl0, hfloor]
      push_cast
      ring

lemma mod360_mem (x : ℝ) : mod360 x ∈ Set.Ico (0 : ℝ) 360 :=
  ⟨mod360_nonneg x, mod360_lt x⟩

/-- The embedded `calculate_gmst` agrees with the spec's formula everywhere. -/
lemma calculate_gmst_eq_spec (ts : ℤ) : calculate_gmst ts = gmst_spec ts := by
  simp only [calculate_gmst, gmst_spec]
  rw [rustRem_normalize]
  congr 1
  congr 1
  ring

lemma calculate_gmst_mem (ts : ℤ) : calculate_gmst ts ∈ Set.Ico 0 (2 * π) := by
  rw [calculate_gmst_eq_spec]
  unfold gmst_spec toRadians
  constructor
  · exact mul_nonneg (mod360_nonneg _) (by positivity)
  · refine lt_of_lt_of_le
      (mul_lt_mul_of_pos_right (mod360_lt _) (by positivity : (0:ℝ) < π / 180))
      (le_of_eq (by ring))

/-! ### atan2 and angle-normalization lemmas -/

lemma arctan_nonpos {x : ℝ} (h : x ≤ 0) : arctan x ≤ 0 := by
  have := Real.arctan_strictMono.monotone h
  simpa [Real.arctan_zero] using this

lemma arctan_nonneg_of {x : ℝ} (h : 0 ≤ x) : 0 ≤ arctan x := by
  have := Real.arctan_strictMono.monotone h
  simpa [Real.arctan_zero] using this

lemma arctan_pos_of {x : ℝ} (h : 0 < x) : 0 < arctan x := by
  have := Real.arctan_strictMono h
  simpa [Real.arctan_zero] using this

lemma atan2_zero_zero : atan2 0 0 = 0 := by
  simp [atan2]

lemma atan2_zero_pos {x : ℝ} (hx : 0 < x) : atan2 0 x = 0 := by
  simp [atan2, hx, Real.arctan_zero]

lemma atan2_zero_neg {x : ℝ} (hx : x < 0) : atan2 0 x = π := by
  have h1 : ¬ (0:ℝ) < x := not_lt.mpr hx.le
  simp [atan2, h1, hx, Real.arctan_zero]

lemma atan2_pos_zero {y : ℝ} (hy : 0 < y) : atan2 y 0 = π / 2 := by
  simp [atan2, hy]

lemma atan2_neg_zero {y : ℝ} (hy : y < 0) : atan2 y 0 = -(π / 2) := by
  have h1 : ¬ (0:ℝ) < y := not_lt.mpr hy.le
  simp [atan2, h1, hy]

lemma atan2_mem_Ioc (y x : ℝ) : atan2 y x ∈ Set.Ioc (-π) π := by
  have hpi := Real.pi_pos
  unfold atan2
  split_ifs with h1 h2 h3 h4 h5
  · exact ⟨by linarith [Real.neg_pi_div_two_lt_arctan (y / x)],
      by linarith [Real.arctan_lt_pi_div_two (y / x)]⟩
  · have hyx : y / x ≤ 0 := div_nonpos_of_nonneg_of_nonpos h3 h2.le
    exact ⟨by linarith [Real.neg_pi_div_two_lt_arctan (y / x)],
      by linarith [arctan_nonpos hyx]⟩
  · push_neg at h3
    have hyx : 0 < y / x := div_pos_of_neg_of_neg h3 h2
    exact ⟨by linarith [arctan_pos_of hyx],
      by linarith [Real.arctan_lt_pi_div_two (y / x)]⟩
  · exact ⟨by linarith, by linarith⟩
  · exact ⟨by linarith, by linarith⟩
  · exact ⟨by linarith, by linarith⟩

lemma toDegrees_nonneg {x : ℝ} (h : 0 ≤ x) : 0 ≤ toDegrees x :=
  mul_nonneg h (by positivity)

lemma toDegrees_neg_of {x : ℝ} (h : x < 0) : toDegrees x < 0 :=
  mul_neg_of_neg_of_pos h (by positivity)

lemma toDegrees_zero : toDegrees 0 = 0 := by
  simp [toDegrees]

lemma toDegrees_pi : toDegrees π = 180 := by
  unfold toDegrees
  field_simp

lemma toDegrees_pi_div_two : toDegrees (π / 2) = 90 := by
  unfold toDegrees
  field_simp
  ring

lemma toDegrees_neg_pi_div_two : toDegrees (-(π / 2)) = -90 := by
  unfold toDegrees
  field_simp
  ring

/-- The azimuth normalization of the source (`if azimuth_deg < 0.0 { += 360.0 }`)
maps any angle in (-pi, pi] into [0, 360) degrees. -/
lemma normalizeDeg_mem {A : ℝ} (h : A ∈ Set.Ioc (-π) π) :
    (if toDegrees A < 0 then toDegrees A + 360 else toDegrees A) ∈ Set.Ico (0:ℝ) 360 := by
  have hpi := Real.pi_pos
  have hub : toDegrees A ≤ 180 := by
    calc toDegrees A = A * (180 / π) := rfl
      _ ≤ π * (180 / π) := mul_le_mul_of_nonneg_right h.2 (by positivity)
      _ = 180 := by field_simp
  have hlb : -180 < toDegrees A := by
    have : -π * (180 / π) < A * (180 / π) := mul_lt_mul_of_pos_right h.1 (by positivity)
    calc (-180 : ℝ) = -π * (180 / π) := by field_simp; ring
      _ < toDegrees A := this
  split_ifs with hneg
  · exact ⟨by linarith, by linarith⟩
  · push_neg at hneg
    exact ⟨hneg, by linarith⟩

/-- Every azimuth produced by `calculate_look_angles` lies in [0, 360). -/
lemma calculate_look_angles_azimuth_mem (sat_eci gs_ecef : ℝ × ℝ × ℝ)
    (gs_lat_deg gs_lon_deg : ℝ) (t : ℤ) :
    (calculate_look_angles sat_eci gs_ecef gs_lat_deg gs_lon_deg t).2 ∈ Set.Ico (0:ℝ) 360 := by
  simp only [calculate_look_angles]
  exact normalizeDeg_mem (atan2_mem_Ioc _ _)

/-! ### The sampling grid and the loop-iteration bridge -/

lemma grid_cons (n : ℕ) (a h : ℤ) :
    (List.range (n + 1)).map (fun i : ℕ => a + h * (i : ℤ)) =
      a :: (List.range n).map (fun i : ℕ => (a + h) + h * (i : ℤ)) := by
  rw [List.range_succ_eq_map]
  simp only [List.map_cons, List.map_map, Function.comp, Nat.cast_zero, mul_zero, add_zero]
  refine List.cons_eq_cons.mpr ⟨rfl, List.map_congr_left ?_⟩
  intro i _
  simp only [Function.comp_apply]
  push_cast
  ring

lemma grid_chain_gen {R : ℤ → ℤ → Prop} (h : ℤ) (hR : ∀ x : ℤ, R x (x + h)) :
    ∀ (n : ℕ) (a u : ℤ), R u a →
      List.Chain R u ((List.range n).map (fun i : ℕ => a + h * (i : ℤ)))
  | 0, a, u, _ => by
      simp only [List.range_zero, List.map_nil]
      exact List.Chain.nil
  | n + 1, a, u, hu => by
      rw [grid_cons]
      exact List.Chain.cons hu (grid_chain_gen h hR n (a + h) a (hR a))

lemma intGrid_chain (s e h : ℤ) (hh : 0 < h) :
    List.Chain (· < ·) (s - 1) (intGrid s e h) :=
  grid_chain_gen h (fun x => by linarith) _ s (s - 1) (by linarith)

lemma intGrid_pairwise (s e h : ℤ) (hh : 0 < h) :
    (intGrid s e h).Pairwise (· < ·) :=
  (List.chain_iff_pairwise.mp (intGrid_chain s e h hh)).sublist (List.sublist_cons_self _ _)

lemma intGrid_chain_diff (s e h : ℤ) (hh : 0 < h) :
    List.Chain' (fun x y => x < y ∧ y = x + h) (intGrid s e h) := by
  have hc : List.Chain (fun x y => x < y ∧ y = x + h) (s - h) (intGrid s e h) :=
    grid_chain_gen h (fun x => ⟨by linarith, rfl⟩) _ s (s - h) ⟨by linarith, by ring⟩
  have : List.Chain' (fun x y => x < y ∧ y = x + h) ((s - h) :: intGrid s e h) := hc
  exact this.tail

lemma intGrid_le_end (s e h : ℤ) (hh : 0 < h) :
    ∀ t ∈ intGrid s e h, t ≤ e := by
  intro t ht
  unfold intGrid at ht
  rcases List.mem_map.mp ht with ⟨i, hi, rfl⟩
  have hin := List.mem_range.mp hi
  unfold tripCount at hin
  by_cases hse : s ≤ e
  · rw [if_pos hse] at hin
    have hq0 : 0 ≤ (e - s).tdiv h := Int.tdiv_nonneg (by linarith) hh.le
    have hi' : (i : ℤ) ≤ (e - s).tdiv h := by
      have h1 : i ≤ ((e - s).tdiv h).toNat := Nat.lt_succ_iff.mp hin
      calc (i : ℤ) ≤ (((e - s).tdiv h).toNat : ℤ) := by exact_mod_cast h1
        _ = (e - s).tdiv h := Int.toNat_of_nonneg hq0
    have htd : (e - s).tdiv h = (e - s) / h := Int.tdiv_eq_ediv (by linarith) hh.le
    have hmul : h * (i : ℤ) ≤ e - s := by
      have h1 : (e - s) / h * h ≤ e - s := Int.ediv_mul_le (e - s) hh.ne'
      have h2 : h * (i : ℤ) ≤ h * ((e - s) / h) := by
        rw [htd] at hi'
        exact mul_le_mul_of_nonneg_left hi' hh.le
      calc h * (i : ℤ) ≤ h * ((e - s) / h) := h2
        _ = (e - s) / h * h := mul_comm _ _
        _ ≤ e - s := h1
    linarith
  · rw [if_neg hse] at hin
    exact absurd hin (Nat.not_lt_zero i)

lemma intGrid_mem_end_iff (s e h : ℤ) (hse : s ≤ e) (hh : 0 < h) :
    e ∈ intGrid s e h ↔ h ∣ (e - s) := by
  constructor
  · intro hmem
    unfold intGrid at hmem
    rcases List.mem_map.mp hmem with ⟨i, _, hi⟩
    exact ⟨(i : ℤ), by linarith⟩
  · rintro ⟨k, hk⟩
    have hk0 : 0 ≤ k := by
      by_contra hneg
      push_neg at hneg
      nlinarith
    unfold intGrid tripCount
    rw [if_pos hse]
    refine List.mem_map.mpr ⟨k.toNat, List.mem_range.mpr ?_, ?_⟩
    · have htd : (e - s).tdiv h = k := by
        rw [hk]
        exact Int.mul_tdiv_cancel_left k hh.ne'
      rw [htd]
      exact Nat.lt_succ_of_le (le_refl _)
    · rw [Int.toNat_of_nonneg hk0]
      linarith

lemma intGrid_length (s e h : ℤ) :
    (intGrid s e h).length = tripCount s e h := by
  simp [intGrid]

/-- The while loop `while t <= e { body(t); t += h }`, viewed as iteration of a
step function on (timestamp, loop state), visits exactly the timestamps
`s, s+h, ..., s+h*(n-1)` in its first n iterations and leaves the timestamp at
`s + h*n`. -/
lemma loop_iterate_eq_fold {α : Type} (g : ℤ × α → ℤ × α) (f : α → ℤ → α) (h : ℤ)
    (hg : ∀ t a, g (t, a) = (t + h, f a t)) :
    ∀ (n : ℕ) (s : ℤ) (a : α),
      g^[n] (s, a) =
        (s + h * n, ((List.range n).map (fun i : ℕ => s + h * (i : ℤ))).foldl f a)
  | 0, s, a => by simp
  | n + 1, s, a => by
      rw [Function.iterate_succ_apply, hg s a, grid_cons]
      simp only [List.foldl_cons]
      rw [loop_iterate_eq_fold g f h hg n (s + h) (f a s)]
      refine Prod.ext ?_ rfl
      push_cast
      ring

lemma trajRun_eq_fold (c : Sgp4Constants) (ep : ℝ) (s e h : ℤ) :
    trajRun c ep s e h =
      (intGrid s e h).foldl (optPush (sampleResult c ep)) [] := by
  unfold trajRun intGrid
  rw [loop_iterate_eq_fold (trajStep c ep h)
    (optPush (sampleResult c ep)) h (fun t a => rfl)]

lemma visRun_eq_fold (c : Sgp4Constants) (ep : ℝ) (gs : GroundStation)
    (gse : ℝ × ℝ × ℝ) (s e : ℤ) :
    visRun c ep gs gse s e =
      (intGrid s e 30).foldl
        (fun st t => visStep c ep gs gse 30 t st) visInit := by
  unfold visRun intGrid
  rw [loop_iterate_eq_fold (visLoopStep c ep gs gse)
    (fun st t => visStep c ep gs gse 30 t st) 30 (fun t a => rfl)]

lemma foldl_push_eq_filterMap {β γ : Type} (g : β → Option γ) :
    ∀ (L : List β) (acc : List γ),
      L.foldl (optPush g) acc = acc ++ L.filterMap g
  | [], acc => by simp
  | b :: L, acc => by
      cases hgb : g b with
      | none =>
          simp only [List.foldl_cons, optPush, hgb, List.filterMap_cons]
          exact foldl_push_eq_filterMap g L acc
      | some r =>
          simp only [List.foldl_cons, optPush, hgb, List.filterMap_cons]
          rw [foldl_push_eq_filterMap g L (acc ++ [r])]
          simp

lemma trajRun_eq_filterMap (c : Sgp4Constants) (ep : ℝ) (s e h : ℤ) :
    trajRun c ep s e h = (intGrid s e h).filterMap (sampleResult c ep) := by
  rw [trajRun_eq_fold, foldl_push_eq_filterMap (sampleResult c ep) (intGrid s e h) []]
  simp

lemma sampleResult_fst {c : Sgp4Constants} {ep : ℝ} {t : ℤ} {r : ℤ × PropagationResult}
    (h : sampleResult c ep t = some r) : r.1 = t := by
  unfold sampleResult at h
  cases hc : c.propagateAt (((t : ℝ) - ep) / 60.0) with
  | none => rw [hc] at h; exact absurd h (by simp)
  | some pred =>
      rw [hc] at h
      simp only [Option.some.injEq] at h
      rw [← h]

lemma filterMap_sample_fst_sublist (c : Sgp4Constants) (ep : ℝ) :
    ∀ L : List ℤ, List.Sublist ((L.filterMap (sampleResult c ep)).map Prod.fst) L
  | [] => by simp
  | t :: L => by
      cases hg : sampleResult c ep t with
      | none =>
          simp only [List.filterMap_cons, hg]
          exact (filterMap_sample_fst_sublist c ep L).cons t
      | some r =>
          have hr := sampleResult_fst hg
          simp only [List.filterMap_cons, hg, List.map_cons, hr]
          exact (filterMap_sample_fst_sublist c ep L).cons₂ t

lemma filterMap_sample_all_some (c : Sgp4Constants) (ep : ℝ) :
    ∀ L : List ℤ, (∀ t ∈ L, (sampleResult c ep t).isSome) →
      ((L.filterMap (sampleResult c ep)).map Prod.fst) = L ∧
      (L.filterMap (sampleResult c ep)).length = L.length
  | [], _ => by simp
  | t :: L, hall => by
      have ht : (sampleResult c ep t).isSome := hall t (List.mem_cons_self t L)
      rcases Option.isSome_iff_exists.mp ht with ⟨r, hr⟩
      have hrest := filterMap_sample_all_some c ep L
        (fun u hu => hall u (List.mem_cons_of_mem t hu))
      simp only [List.filterMap_cons, hr, List.map_cons, List.length_cons,
        sampleResult_fst hr]
      exact ⟨by rw [hrest.1], by rw [hrest.2]⟩

/-! ### The visibility state machine: branch lemmas -/

lemma visStep_none {c : Sgp4Constants} {ep : ℝ} {gs : GroundStation} {gse : ℝ × ℝ × ℝ}
    {step t : ℤ} {st : VisState}
    (hp : c.propagateAt (((t : ℝ) - ep) / 60.0) = none) :
    visStep c ep gs gse step t st = st := by
  unfold visStep
  rw [hp]

lemma visStep_open {c : Sgp4Constants} {ep : ℝ} {gs : GroundStation} {gse : ℝ × ℝ × ℝ}
    {step t : ℤ} {st : VisState} {pred : Prediction}
    (hp : c.propagateAt (((t : ℝ) - ep) / 60.0) = some pred)
    (habove : gs.min_elevation_deg ≤
      (calculate_look_angles pred.position gse gs.latitude_deg gs.longitude_deg t).1)
    (hout : st.in_pass = false) :
    visStep c ep gs gse step t st =
      ⟨true, t,
       (calculate_look_angles pred.position gse gs.latitude_deg gs.longitude_deg t).2,
       (calculate_look_angles pred.position gse gs.latitude_deg gs.longitude_deg t).1,
       t, st.passes⟩ := by
  unfold visStep
  simp [hp, habove, hout]

lemma visStep_update {c : Sgp4Constants} {ep : ℝ} {gs : GroundStation} {gse : ℝ × ℝ × ℝ}
    {step t : ℤ} {st : VisState} {pred : Prediction}
    (hp : c.propagateAt (((t : ℝ) - ep) / 60.0) = some pred)
    (habove : gs.min_elevation_deg ≤
      (calculate_look_angles pred.position gse gs.latitude_deg gs.longitude_deg t).1)
    (hin : st.in_pass = true)
    (hgt : st.max_elevation <
      (calculate_look_angles pred.position gse gs.latitude_deg gs.longitude_deg t).1) :
    visStep c ep gs gse step t st =
      { st with
        max_elevation :=
          (calculate_look_angles pred.position gse gs.latitude_deg gs.longitude_deg t).1
        tca_timestamp := t } := by
  unfold visStep
  simp [hp, habove, hin, hgt]

lemma visStep_keep {c : Sgp4Constants} {ep : ℝ} {gs : GroundStation} {gse : ℝ × ℝ × ℝ}
    {step t : ℤ} {st : VisState} {pred : Prediction}
    (hp : c.propagateAt (((t : ℝ) - ep) / 60.0) = some pred)
    (habove : gs.min_elevation_deg ≤
      (calculate_look_angles pred.position gse gs.latitude_deg gs.longitude_deg t).1)
    (hin : st.in_pass = true)
    (hle : ¬ st.max_elevation <
      (calculate_look_angles pred.position gse gs.latitude_deg gs.longitude_deg t).1) :
    visStep c ep gs gse step t st = st := by
  unfold visStep
  simp [hp, habove, hin, hle]

lemma visStep_emit {c : Sgp4Constants} {ep : ℝ} {gs : GroundStation} {gse : ℝ × ℝ × ℝ}
    {step t : ℤ} {st : VisState} {pred : Prediction}
    (hp : c.propagateAt (((t : ℝ) - ep) / 60.0) = some pred)
    (hbelow : ¬ gs.min_elevation_deg ≤
      (calculate_look_angles pred.position gse gs.latitude_deg gs.longitude_deg t).1)
    (hin : st.in_pass = true) :
    visStep c ep gs gse step t st =
      { st with
        in_pass := false
        passes := st.passes ++
          [⟨st.current_pass_start, t, st.tca_timestamp, st.max_elevation,
            st.current_pass_start_azimuth,
            (calculate_look_angles pred.position gse
              gs.latitude_deg gs.longitude_deg (t - step)).2,
            t - st.current_pass_start⟩] } := by
  unfold visStep
  simp [hp, hbelow, hin]

lemma visStep_out_below {c : Sgp4Constants} {ep : ℝ} {gs : GroundStation} {gse : ℝ × ℝ × ℝ}
    {step t : ℤ} {st : VisState} {pred : Prediction}
    (hp : c.propagateAt (((t : ℝ) - ep) / 60.0) = some pred)
    (hbelow : ¬ gs.min_elevation_deg ≤
      (calculate_look_angles pred.position gse gs.latitude_deg gs.longitude_deg t).1)
    (hout : st.in_pass = false) :
    visStep c ep gs gse step t st = st := by
  unfold visStep
  simp [hp, hbelow, hout]

/-! ### The visibility-pass invariant -/

/-- The (corrected) per-pass invariant: AOS ≤ TCA ≤ LOS, max elevation at least
the station threshold, both azimuths in [0, 360) degrees. -/
def GoodPass (threshold : ℝ) (p : VisibilityPass) : Prop :=
  p.aos_timestamp ≤ p.tca_timestamp ∧ p.tca_timestamp ≤ p.los_timestamp ∧
  threshold ≤ p.max_elevation_deg ∧ p.aos_azimuth_deg ∈ Set.Ico (0:ℝ) 360 ∧
  p.los_azimuth_deg ∈ Set.Ico (0:ℝ) 360

/-- Loop invariant of the visibility sweep after all samples up to time u have
been processed. -/
def VisInv (threshold : ℝ) (u : ℤ) (st : VisState) : Prop :=
  (∀ p ∈ st.passes, GoodPass threshold p ∧ p.los_timestamp ≤ u) ∧
  st.passes.Pairwise (fun p q => p.los_timestamp < q.aos_timestamp) ∧
  (st.in_pass = true →
    threshold ≤ st.max_elevation ∧ st.current_pass_start ≤ st.tca_timestamp ∧
    st.tca_timestamp ≤ u ∧ st.current_pass_start_azimuth ∈ Set.Ico (0:ℝ) 360 ∧
    ∀ p ∈ st.passes, p.los_timestamp < st.current_pass_start)

lemma visInv_mono {threshold : ℝ} {u v : ℤ} {st : VisState}
    (h : VisInv threshold u st) (huv : u ≤ v) : VisInv threshold v st := by
  obtain ⟨h1, h2, h3⟩ := h
  refine ⟨fun p hp => ⟨(h1 p hp).1, le_trans (h1 p hp).2 huv⟩, h2, fun hin => ?_⟩
  obtain ⟨a, b, c, d, e⟩ := h3 hin
  exact ⟨a, b, le_trans c huv, d, e⟩

lemma visInv_init (threshold : ℝ) (u : ℤ) : VisInv threshold u visInit :=
  ⟨by simp [visInit], by simp [visInit], by simp [visInit]⟩

lemma visInv_step (c : Sgp4Constants) (ep : ℝ) (gs : GroundStation) (gse : ℝ × ℝ × ℝ)
    (step : ℤ) {u t : ℤ} {st : VisState}
    (hinv : VisInv gs.min_elevation_deg u st) (hut : u < t) :
    VisInv gs.min_elevation_deg t (visStep c ep gs gse step t st) := by
  obtain ⟨hps, hpw, hin⟩ := hinv
  cases hp : c.propagateAt (((t : ℝ) - ep) / 60.0) with
  | none =>
      rw [visStep_none hp]
      exact visInv_mono ⟨hps, hpw, hin⟩ hut.le
  | some pred =>
    by_cases habove : gs.min_elevation_deg ≤
        (calculate_look_angles pred.position gse gs.latitude_deg gs.longitude_deg t).1
    · cases hinp : st.in_pass with
      | false =>
          rw [visStep_open hp habove hinp]
          refine ⟨fun p hp' => ⟨(hps p hp').1, le_trans (hps p hp').2 hut.le⟩, hpw, fun _ => ?_⟩
          exact ⟨habove, le_refl t, le_refl t,
            calculate_look_angles_azimuth_mem _ _ _ _ _,
            fun p hp' => lt_of_le_of_lt (hps p hp').2 hut⟩
      | true =>
          by_cases hgt : st.max_elevation <
              (calculate_look_angles pred.position gse gs.latitude_deg gs.longitude_deg t).1
          · rw [visStep_update hp habove hinp hgt]
            obtain ⟨_, hb, hc, hd, he⟩ := hin hinp
            refine ⟨fun p hp' => ⟨(hps p hp').1, le_trans (hps p hp').2 hut.le⟩, hpw, fun _ => ?_⟩
            exact ⟨habove, by exact le_trans hb (le_trans hc hut.le), le_refl t, hd, he⟩
          · rw [visStep_keep hp habove hinp hgt]
            exact visInv_mono ⟨hps, hpw, hin⟩ hut.le
    · cases hinp : st.in_pass with
      | true =>
          rw [visStep_emit hp habove hinp]
          obtain ⟨ha, hb, hc, hd, he⟩ := hin hinp
          refine ⟨?_, ?_, ?_⟩
          · intro p hp'
            rcases List.mem_append.mp hp' with hmem | hmem
            · exact ⟨(hps p hmem).1, le_trans (hps p hmem).2 hut.le⟩
            · rcases List.mem_singleton.mp hmem with rfl
              exact ⟨⟨hb, le_trans hc hut.le, ha, hd,
                calculate_look_angles_azimuth_mem _ _ _ _ _⟩, le_refl t⟩
          · rw [List.pairwise_append]
            refine ⟨hpw, List.pairwise_singleton _ _, fun p hp' q hq => ?_⟩
            rcases List.mem_singleton.mp hq with rfl
            exact he p hp'
          · intro hcontra
            exact absurd hcontra Bool.false_ne_true
      | false =>
          rw [visStep_out_below hp habove hinp]
          exact visInv_mono ⟨hps, hpw, hin⟩ hut.le

lemma visInv_foldl (c : Sgp4Constants) (ep : ℝ) (gs : GroundStation) (gse : ℝ × ℝ × ℝ)
    (step : ℤ) :
    ∀ (L : List ℤ) (u v : ℤ) (st : VisState),
      VisInv gs.min_elevation_deg u st → List.Chain (· < ·) u L →
      (∀ t ∈ L, t ≤ v) → u ≤ v →
      VisInv gs.min_elevation_deg v
        (L.foldl (fun st t => visStep c ep gs gse step t st) st)
  | [], u, v, st, hinv, _, _, huv => by simpa using visInv_mono hinv huv
  | t :: L, u, v, st, hinv, hchain, hle, huv => by
      cases hchain with
      | cons hut hchain' =>
          simp only [List.foldl_cons]
          exact visInv_foldl c ep gs gse step L t v _
            (visInv_step c ep gs gse step hinv hut) hchain'
            (fun x hx => hle x (List.mem_cons_of_mem t hx))
            (hle t (List.mem_cons_self t L))

/-- The final state of the visibility loop satisfies the invariant at the window
end. -/
lemma visRun_inv (c : Sgp4Constants) (ep : ℝ) (gs : GroundStation) (gse : ℝ × ℝ × ℝ)
    (s e : ℤ) (hse : s ≤ e) :
    VisInv gs.min_elevation_deg e (visRun c ep gs gse s e) := by
  rw [visRun_eq_fold]
  exact visInv_foldl c ep gs gse 30 (intGrid s e 30) (s - 1) e visInit
    (visInv_init _ _) (intGrid_chain s e 30 (by norm_num))
    (intGrid_le_end s e 30 (by norm_num)) (by linarith)

lemma visRun_empty (c : Sgp4Constants) (ep : ℝ) (gs : GroundStation) (gse : ℝ × ℝ × ℝ)
    {s e : ℤ} (hse : ¬ s ≤ e) :
    visRun c ep gs gse s e = visInit := by
  rw [visRun_eq_fold]
  unfold intGrid tripCount
  rw [if_neg hse]
  simp

/-- Every pass produced by the visibility sweep satisfies the corrected
invariant, and the passes are pairwise disjoint in ascending AOS order. -/
lemma visPasses_good (c : Sgp4Constants) (ep : ℝ) (gs : GroundStation) (gse : ℝ × ℝ × ℝ)
    (s e : ℤ) :
    (∀ p ∈ visPasses c ep gs gse s e, GoodPass gs.min_elevation_deg p) ∧
    (visPasses c ep gs gse s e).Pairwise (fun p q => p.los_timestamp < q.aos_timestamp) := by
  by_cases hse : s ≤ e
  · obtain ⟨hps, hpw, hin⟩ := visRun_inv c ep gs gse s e hse
    unfold visPasses
    cases hinp : (visRun c ep gs gse s e).in_pass with
    | false =>
        simp only [hinp, Bool.false_eq_true, if_false]
        exact ⟨fun p hp => (hps p hp).1, hpw⟩
    | true =>
        simp only [hinp, if_true]
        obtain ⟨ha, hb, hc, hd, he⟩ := hin hinp
        constructor
        · intro p hp'
          rcases List.mem_append.mp hp' with hmem | hmem
          · exact (hps p hmem).1
          · rcases List.mem_singleton.mp hmem with rfl
            exact ⟨hb, hc, ha, hd, ⟨by norm_num, by norm_num⟩⟩
        · rw [List.pairwise_append]
          refine ⟨hpw, List.pairwise_singleton _ _, fun p hp' q hq => ?_⟩
          rcases List.mem_singleton.mp hq with rfl
          exact he p hp'
  · unfold visPasses
    rw [visRun_empty c ep gs gse hse]
    simp [visInit]

/-- When the window ends with a pass still open, `calculate_visibility_passes`
appends exactly one final pass, as described by the source's post-loop block. -/
lemma visPasses_of_in_pass {c : Sgp4Constants} {ep : ℝ} {gs : GroundStation}
    {gse : ℝ × ℝ × ℝ} {s e : ℤ}
    (h : (visRun c ep gs gse s e).in_pass = true) :
    visPasses c ep gs gse s e =
      (visRun c ep gs gse s e).passes ++
        [⟨(visRun c ep gs gse s e).current_pass_start, e,
          (visRun c ep gs gse s e).tca_timestamp,
          (visRun c ep gs gse s e).max_elevation,
          (visRun c ep gs gse s e).current_pass_start_azimuth, 0.0,
          e - (visRun c ep gs gse s e).current_pass_start⟩] := by
  unfold visPasses
  simp only [h, if_true]


/-! ### WGS84 numeric facts and north-pole evaluations -/

lemma one_sub_e2_eq : (1:ℝ) - e2Wgs = (1 - fWgs) ^ 2 := by
  unfold e2Wgs
  ring

lemma sqrt_one_sub_e2 : Real.sqrt (1 - e2Wgs) = 1 - fWgs := by
  rw [one_sub_e2_eq]
  exact Real.sqrt_sq (by norm_num [fWgs])

/-- The ECEF z-coordinate of a sea-level ground station at geodetic latitude 90:
`n * (1 - e2)` with `n = a / sqrt(1 - e2)`. -/
def npZ : ℝ := aWgs / Real.sqrt (1 - e2Wgs) * (1 - e2Wgs)

lemma npZ_eq : npZ = aWgs * (1 - fWgs) := by
  unfold npZ
  rw [sqrt_one_sub_e2, one_sub_e2_eq]
  have hf : (1:ℝ) - fWgs ≠ 0 := by norm_num [fWgs]
  field_simp
  ring

lemma npZ_bounds : 6356 < npZ ∧ npZ < 6357 := by
  rw [npZ_eq]
  unfold aWgs fWgs
  norm_num

lemma toRadians_90 : toRadians 90 = π / 2 := by
  unfold toRadians
  ring

lemma toRadians_zero : toRadians 0 = 0 := by
  unfold toRadians
  ring

/-- A ground station at the pole (latitude 90, altitude 0) has ECEF position
`(0, 0, npZ)` whatever its longitude. -/
lemma pole_ecef (lon alt : ℝ) (halt : alt = 0) :
    geodetic_to_ecef 90 lon alt = (0, 0, npZ) := by
  subst halt
  simp only [geodetic_to_ecef, toRadians_90, Real.sin_pi_div_two, Real.cos_pi_div_two, npZ]
  norm_num

/-- Look angles from the pole station toward a satellite on the polar axis above
it: elevation 90, azimuth 0, at any timestamp. -/
lemma look_np_above {cz : ℝ} (h : npZ < cz) (t : ℤ) :
    calculate_look_angles (0, 0, cz) (0, 0, npZ) 90 0 t = (90, 0) := by
  simp only [calculate_look_angles, toRadians_90, toRadians_zero,
    Real.sin_pi_div_two, Real.cos_pi_div_two, Real.sin_zero, Real.cos_zero]
  norm_num
  have hsq : Real.sqrt ((cz - npZ) * (cz - npZ)) = cz - npZ := by
    rw [Real.sqrt_mul_self_eq_abs]
    exact abs_of_pos (by linarith)
  rw [hsq, div_self (by linarith : cz - npZ ≠ 0), Real.arcsin_one, toDegrees_pi_div_two,
    atan2_zero_zero, toDegrees_zero]
  norm_num

/-- Look angles from the pole station toward a point on the polar axis below it:
elevation -90, azimuth 0, at any timestamp. -/
lemma look_np_below {cz : ℝ} (h : cz < npZ) (t : ℤ) :
    calculate_look_angles (0, 0, cz) (0, 0, npZ) 90 0 t = (-90, 0) := by
  simp only [calculate_look_angles, toRadians_90, toRadians_zero,
    Real.sin_pi_div_two, Real.cos_pi_div_two, Real.sin_zero, Real.cos_zero]
  norm_num
  have hsq : Real.sqrt ((cz - npZ) * (cz - npZ)) = -(cz - npZ) := by
    rw [Real.sqrt_mul_self_eq_abs]
    exact abs_of_neg (by linarith)
  have hne : cz - npZ ≠ 0 := by linarith
  have hdiv : (cz - npZ) / -(cz - npZ) = -1 := by
    rw [div_neg, div_self hne]
  rw [hsq, hdiv, Real.arcsin_neg_one, toDegrees_neg_pi_div_two,
    atan2_zero_zero, toDegrees_zero]
  norm_num


/-! ### Concrete stations, oracles and run evaluations (north pole) -/

/-- A ground station at the north pole with a 5-degree elevation threshold. -/
def npStation : GroundStation := ⟨"NP", "North Pole", 90, 0, 0, 5⟩

/-- A prediction placing the satellite on the polar axis above the pole station. -/
def predUp : Prediction := ⟨(0, 0, 7000), (0, 0, 0)⟩

/-- A prediction placing the satellite at the geocenter (below the pole station). -/
def predDown : Prediction := ⟨(0, 0, 0), (0, 0, 0)⟩

/-- An SGP4 oracle that always succeeds with the position above the pole. -/
def cAbove : Sgp4Constants := ⟨fun _ => some predUp⟩

/-- An SGP4 oracle that reports the satellite above the pole for the first
sample (minutes ≤ 0.25) and below afterwards. -/
def cUpDown : Sgp4Constants :=
  ⟨fun m => if m ≤ 0.25 then some predUp else some predDown⟩

lemma cUpDown_at0 : cUpDown.propagateAt ((((0:ℤ) : ℝ) - 0) / 60.0) = some predUp := by
  unfold cUpDown
  norm_num

lemma cUpDown_at30 : cUpDown.propagateAt ((((30:ℤ) : ℝ) - 0) / 60.0) = some predDown := by
  unfold cUpDown
  norm_num

lemma cAbove_at (t : ℤ) : cAbove.propagateAt (((t : ℝ) - 0) / 60.0) = some predUp := rfl

lemma look_np_up_at (t : ℤ) :
    calculate_look_angles predUp.position (0, 0, npZ) npStation.latitude_deg
      npStation.longitude_deg t = (90, 0) := by
  simp only [npStation, predUp]
  exact look_np_above (by linarith [npZ_bounds.2]) t

lemma look_np_down_at (t : ℤ) :
    calculate_look_angles predDown.position (0, 0, npZ) npStation.latitude_deg
      npStation.longitude_deg t = (-90, 0) := by
  simp only [npStation, predDown]
  exact look_np_below (by linarith [npZ_bounds.1]) t

lemma npStation_gse :
    geodetic_to_ecef npStation.latitude_deg npStation.longitude_deg
      (npStation.altitude_m / 1000.0) = (0, 0, npZ) := by
  simp only [npStation]
  exact pole_ecef 0 (0 / 1000.0) (by norm_num)

lemma intGrid_0_30 : intGrid 0 30 30 = [0, 30] := by decide

lemma intGrid_0_0 : intGrid 0 0 30 = [0] := by decide

/-- The up-then-down run over window [0, 30] emits a single pass whose TCA
equals its AOS. -/
lemma visRun_c1 : visRun cUpDown 0 npStation (0, 0, npZ) 0 30 =
    ⟨false, 0, 0, 90, 0, [⟨0, 30, 0, 90, 0, 0, 30⟩]⟩ := by
  rw [visRun_eq_fold, intGrid_0_30]
  simp only [List.foldl_cons, List.foldl_nil]
  rw [visStep_open cUpDown_at0 (by rw [look_np_up_at]; simp [npStation]; norm_num) rfl]
  rw [look_np_up_at]
  rw [visStep_emit cUpDown_at30 (by rw [look_np_down_at]; simp [npStation]; norm_num) rfl]
  rw [look_np_down_at]
  simp [visInit]

lemma visPasses_c1 : visPasses cUpDown 0 npStation (0, 0, npZ) 0 30 =
    [⟨0, 30, 0, 90, 0, 0, 30⟩] := by
  unfold visPasses
  rw [visRun_c1]
  simp

/-- The always-above run over the degenerate window [0, 0] ends in the IN state
with an open pass started at 0. -/
lemma visRun_c9 : visRun cAbove 0 npStation (0, 0, npZ) 0 0 =
    ⟨true, 0, 0, 90, 0, []⟩ := by
  rw [visRun_eq_fold, intGrid_0_0]
  simp only [List.foldl_cons, List.foldl_nil]
  rw [visStep_open (cAbove_at 0) (by rw [look_np_up_at]; simp [npStation]; norm_num) rfl]
  rw [look_np_up_at]
  simp [visInit]


/-! ### Trajectory loop: termination, count and shape -/

lemma trajStep_iterate_fst (c : Sgp4Constants) (ep : ℝ) (h : ℤ) (n : ℕ) (s : ℤ)
    (a : List (ℤ × PropagationResult)) :
    ((trajStep c ep h)^[n] (s, a)).1 = s + h * n := by
  rw [loop_iterate_eq_fold (trajStep c ep h) (optPush (sampleResult c ep)) h
    (fun t a => rfl) n s a]

/-- When the step is at least one second, the loop exits after
`tripCount` iterations: the timestamp then exceeds the window end. -/
lemma traj_loop_exits (c : Sgp4Constants) (ep : ℝ) {s e h : ℤ} (hse : s ≤ e) (hh : 1 ≤ h) :
    ¬ (((trajStep c ep h)^[tripCount s e h] (s, [])).1 ≤ e) := by
  rw [trajStep_iterate_fst]
  unfold tripCount
  rw [if_pos hse]
  have hh0 : (0:ℤ) < h := by linarith
  have hq0 : 0 ≤ (e - s).tdiv h := Int.tdiv_nonneg (by linarith) hh0.le
  have htd : (e - s).tdiv h = (e - s) / h := Int.tdiv_eq_ediv (by linarith) hh0.le
  have hlt : e - s < ((e - s) / h + 1) * h := Int.lt_ediv_add_one_mul_self (e - s) hh0
  push_cast [Int.toNat_of_nonneg hq0]
  push_neg
  rw [htd]
  nlinarith

/-- When the step is nonpositive and the window is nonempty, the loop guard
`timestamp <= end` remains true after every number of iterations. -/
lemma traj_loop_never_exits (c : Sgp4Constants) (ep : ℝ) {s e h : ℤ}
    (hse : s ≤ e) (hh : h ≤ 0) (n : ℕ) :
    ((trajStep c ep h)^[n] (s, [])).1 ≤ e := by
  rw [trajStep_iterate_fst]
  have : h * (n : ℤ) ≤ 0 := mul_nonpos_of_nonpos_of_nonneg hh (by positivity)
  linarith

lemma propagate_trajectory_ok {Elements : Type} {from_tle : Except String Elements}
    {from_elements : Elements → Except String Sgp4Constants} {epoch : Elements → ℝ}
    (s e h : ℤ) {el : Elements} {cst : Sgp4Constants}
    (h1 : from_tle = .ok el) (h2 : from_elements el = .ok cst) :
    propagate_trajectory from_tle from_elements epoch s e h =
      .ok (trajRun cst (epoch el) s e h) := by
  unfold propagate_trajectory
  rw [h1]
  dsimp only
  rw [h2]

lemma propagate_trajectory_tle_err {Elements : Type} {from_tle : Except String Elements}
    {from_elements : Elements → Except String Sgp4Constants} {epoch : Elements → ℝ}
    (s e h : ℤ) {msg : String} (h1 : from_tle = .error msg) :
    propagate_trajectory from_tle from_elements epoch s e h =
      .error (.tleParseError msg) := by
  unfold propagate_trajectory
  rw [h1]

lemma propagate_trajectory_init_err {Elements : Type} {from_tle : Except String Elements}
    {from_elements : Elements → Except String Sgp4Constants} {epoch : Elements → ℝ}
    (s e h : ℤ) {el : Elements} {msg : String}
    (h1 : from_tle = .ok el) (h2 : from_elements el = .error msg) :
    propagate_trajectory from_tle from_elements epoch s e h =
      .error (.propagatorError msg) := by
  unfold propagate_trajectory
  rw [h1]
  dsimp only
  rw [h2]

/-- Under total per-sample success the trajectory results are exactly the grid
samples. -/
lemma trajRun_all_some (c : Sgp4Constants) (ep : ℝ) (s e h : ℤ)
    (hsucc : ∀ t ∈ intGrid s e h, (sampleResult c ep t).isSome) :
    (trajRun c ep s e h).map Prod.fst = intGrid s e h ∧
    (trajRun c ep s e h).length = (intGrid s e h).length := by
  rw [trajRun_eq_filterMap]
  obtain ⟨h1, h2⟩ := filterMap_sample_all_some c ep (intGrid s e h) hsucc
  exact ⟨h1, h2⟩

lemma trajRun_fst_pairwise (c : Sgp4Constants) (ep : ℝ) (s e h : ℤ) (hh : 0 < h) :
    ((trajRun c ep s e h).map Prod.fst).Pairwise (· < ·) := by
  rw [trajRun_eq_filterMap]
  exact (intGrid_pairwise s e h hh).sublist (filterMap_sample_fst_sublist c ep _)


/-! ### Request validation evaluations -/

/-- The 69-character ISS TLE line 1 used by the repository tests. -/
def issLine1 : String := "1 25544U 98067A   24001.50000000  .00016717  00000-0  10270-3 0  9025"

/-- The 69-character ISS TLE line 2 used by the repository tests. -/
def issLine2 : String := "2 25544  51.6400 208.9163 0006703 130.5360 325.0288 15.50377579999999"

/-- An HTTP trajectory request with valid TLE lengths, end after start, and
`step_seconds = 0`. -/
def httpReqStep0 : HttpTrajectoryRequest := ⟨"ISS", issLine1, issLine2, 0, 100, 0⟩

/-- The same request at the gRPC interface. -/
def grpcReqStep0 : GrpcTrajectoryRequest := ⟨"ISS", some (issLine1, issLine2), 0, 100, 0⟩

/-- An HTTP trajectory request with 1000001 samples. -/
def httpReqBig : HttpTrajectoryRequest := ⟨"ISS", issLine1, issLine2, 0, 1000000, 1⟩

/-- The same oversized request at the gRPC interface. -/
def grpcReqBig : GrpcTrajectoryRequest := ⟨"ISS", some (issLine1, issLine2), 0, 1000000, 1⟩

lemma httpValidate_step0 : httpTrajectoryValidate httpReqStep0 = none := by decide

lemma httpValidate_big : httpTrajectoryValidate httpReqBig = none := by decide

lemma grpcValidate_step0 :
    grpcTrajectoryValidate grpcReqStep0 = some .stepNotPositive := by decide

lemma grpcValidate_big :
    grpcTrajectoryValidate grpcReqBig = some .tooManyPoints := by decide

lemma trajectory_handler_step0 {Elements : Type} (from_tle : Except String Elements)
    (from_elements : Elements → Except String Sgp4Constants) (epoch : Elements → ℝ) :
    trajectory_handler from_tle from_elements epoch httpReqStep0 =
      .ok (propagate_trajectory from_tle from_elements epoch 0 100 0) := by
  unfold trajectory_handler
  rw [httpValidate_step0]
  rfl

/-! ### GMST quadrant bounds at two concrete timestamps -/

/-- The GMST cubic polynomial in degrees, before reduction modulo 360 (named so
that concrete instances can be bounded numerically). -/
def gmstPoly (ts : ℤ) : ℝ :=
  280.46061837 + 360.98564736629 * ((2440587.5 + (ts : ℝ) / 86400.0) - 2451545.0)
    + 0.000387933 * (((2440587.5 + (ts : ℝ) / 86400.0) - 2451545.0) / 36525.0) ^ 2
    - (((2440587.5 + (ts : ℝ) / 86400.0) - 2451545.0) / 36525.0) ^ 3 / 38710000.0

lemma gmst_spec_eq_poly (ts : ℤ) : gmst_spec ts = toRadians (mod360 (gmstPoly ts)) := rfl

lemma gmst_between (ts : ℤ) (k : ℤ) (lo hi : ℝ)
    (hfl : ⌊gmstPoly ts / 360⌋ = k)
    (hlo : lo < gmstPoly ts - 360 * (k : ℝ))
    (hhi : gmstPoly ts - 360 * (k : ℝ) < hi) :
    lo * (π / 180) < calculate_gmst ts ∧ calculate_gmst ts < hi * (π / 180) := by
  rw [calculate_gmst_eq_spec, gmst_spec_eq_poly]
  unfold toRadians mod360
  rw [hfl]
  exact ⟨mul_lt_mul_of_pos_right hlo (by positivity),
    mul_lt_mul_of_pos_right hhi (by positivity)⟩

lemma gmst_tB_mem : π / 2 < calculate_gmst 1704064771 ∧ calculate_gmst 1704064771 < π := by
  have h := gmst_between 1704064771 8790 90 180 ?hfl ?hlo ?hhi
  case hfl =>
    rw [Int.floor_eq_iff]
    unfold gmstPoly
    norm_num
  case hlo =>
    unfold gmstPoly
    push_cast
    norm_num
  case hhi =>
    unfold gmstPoly
    push_cast
    norm_num
  constructor
  · calc π / 2 = 90 * (π / 180) := by ring
      _ < calculate_gmst 1704064771 := h.1
  · calc calculate_gmst 1704064771 < 180 * (π / 180) := h.2
      _ = π := by ring

lemma gmst_tA_mem : π / 4 < calculate_gmst 1704064741 ∧ calculate_gmst 1704064741 < π / 2 := by
  have h := gmst_between 1704064741 8790 45 90 ?hfl ?hlo ?hhi
  case hfl =>
    rw [Int.floor_eq_iff]
    unfold gmstPoly
    norm_num
  case hlo =>
    unfold gmstPoly
    push_cast
    norm_num
  case hhi =>
    unfold gmstPoly
    push_cast
    norm_num
  constructor
  · calc π / 4 = 45 * (π / 180) := by ring
      _ < calculate_gmst 1704064741 := h.1
  · calc calculate_gmst 1704064741 < 90 * (π / 180) := h.2
      _ = π / 2 := by ring

lemma cos_gB_neg : cos (calculate_gmst 1704064771) < 0 := by
  have h := gmst_tB_mem
  have hpi := Real.pi_pos
  exact Real.cos_neg_of_pi_div_two_lt_of_lt h.1 (by linarith [h.2])

lemma cos_gA_pos : 0 < cos (calculate_gmst 1704064741) := by
  have h := gmst_tA_mem
  have hpi := Real.pi_pos
  exact Real.cos_pos_of_mem_Ioo ⟨by linarith [h.1], h.2⟩

lemma sin_gA_big : Real.sqrt 2 / 2 < sin (calculate_gmst 1704064741) := by
  have h := gmst_tA_mem
  have hpi := Real.pi_pos
  have h1 : sin (π / 4) < sin (calculate_gmst 1704064741) := by
    apply Real.strictMonoOn_sin ⟨by linarith, by linarith⟩ ⟨by linarith [h.1], h.2.le⟩ h.1
  rwa [Real.sin_pi_div_four] at h1

lemma sqrt_two_gt : (1.41 : ℝ) < Real.sqrt 2 := by
  nlinarith [Real.sq_sqrt (show (0:ℝ) ≤ 2 by norm_num), Real.sqrt_nonneg 2]


/-! ### Equator-station evaluations for the LOS-azimuth discrepancy -/

lemma elevation2_nonneg {E Z : ℝ} (hz : 0 ≤ Z) :
    0 ≤ toDegrees (arcsin (Z / Real.sqrt (E * E + Z * Z))) :=
  toDegrees_nonneg (Real.arcsin_nonneg.mpr (div_nonneg hz (Real.sqrt_nonneg _)))

lemma elevation2_neg {E Z : ℝ} (hz : Z < 0) :
    toDegrees (arcsin (Z / Real.sqrt (E * E + Z * Z))) < 0 := by
  apply toDegrees_neg_of
  apply Real.arcsin_lt_zero.mpr
  apply div_neg_of_neg_of_pos hz
  apply Real.sqrt_pos.mpr
  nlinarith

/-- A ground station on the equator at the prime meridian with a 0-degree
threshold. -/
def eqStation : GroundStation := ⟨"EQ", "Equator", 0, 0, 0, 0⟩

/-- A prediction far out along the +y ECI axis. -/
def predSide : Prediction := ⟨(0, 10000, 0), (0, 0, 0)⟩

/-- A prediction one km along the +y ECI axis (inside the Earth; the oracle is
arbitrary). -/
def predNear : Prediction := ⟨(0, 1, 0), (0, 0, 0)⟩

/-- An oracle returning the far position at the first sample and the near
position at the second (the threshold 28401079.1 minutes separates the two
sample timestamps of the window used below). -/
def cSwing : Sgp4Constants :=
  ⟨fun m => if m ≤ 28401079.1 then some predSide else some predNear⟩

lemma cSwing_atA :
    cSwing.propagateAt ((((1704064741:ℤ) : ℝ) - 0) / 60.0) = some predSide := by
  unfold cSwing
  norm_num

lemma cSwing_atB :
    cSwing.propagateAt ((((1704064771:ℤ) : ℝ) - 0) / 60.0) = some predNear := by
  unfold cSwing
  norm_num

lemma intGrid_c3 : intGrid 1704064741 1704064771 30 = [1704064741, 1704064771] := by decide

lemma eq_gse :
    geodetic_to_ecef eqStation.latitude_deg eqStation.longitude_deg
      (eqStation.altitude_m / 1000.0) = (aWgs, 0, 0) := by
  simp only [eqStation, geodetic_to_ecef, toRadians_zero, Real.sin_zero, Real.cos_zero]
  norm_num

lemma look_eqSide_el :
    (0:ℝ) ≤ (calculate_look_angles (0, 10000, 0) (aWgs, 0, 0) 0 0 1704064741).1 := by
  simp only [calculate_look_angles, toRadians_zero, Real.sin_zero, Real.cos_zero]
  norm_num
  apply elevation2_nonneg
  unfold aWgs
  linarith [sin_gA_big, sqrt_two_gt]

lemma look_eqNear_el_neg :
    (calculate_look_angles (0, 1, 0) (aWgs, 0, 0) 0 0 1704064771).1 < 0 := by
  simp only [calculate_look_angles, toRadians_zero, Real.sin_zero, Real.cos_zero]
  norm_num
  apply elevation2_neg
  unfold aWgs
  linarith [Real.sin_le_one (calculate_gmst 1704064771)]

lemma look_eqNear_az_tB :
    (calculate_look_angles (0, 1, 0) (aWgs, 0, 0) 0 0 1704064771).2 = 180 := by
  simp only [calculate_look_angles, toRadians_zero, Real.sin_zero, Real.cos_zero]
  norm_num
  rw [atan2_zero_neg cos_gB_neg, toDegrees_pi]
  norm_num

lemma look_eqNear_az_tA :
    (calculate_look_angles (0, 1, 0) (aWgs, 0, 0) 0 0 1704064741).2 = 0 := by
  simp only [calculate_look_angles, toRadians_zero, Real.sin_zero, Real.cos_zero]
  norm_num
  rw [atan2_zero_pos cos_gA_pos, toDegrees_zero]
  norm_num

lemma end_az_c3 :
    (calculate_look_angles predNear.position (aWgs, 0, 0) eqStation.latitude_deg
      eqStation.longitude_deg ((1704064771:ℤ) - 30)).2 = 0 := by
  simp only [predNear, eqStation]
  rw [show (1704064771:ℤ) - 30 = 1704064741 from by norm_num]
  exact look_eqNear_az_tA

lemma a_i_c3 :
    (calculate_look_angles predNear.position (aWgs, 0, 0) eqStation.latitude_deg
      eqStation.longitude_deg 1704064771).2 = 180 := by
  simp only [predNear, eqStation]
  exact look_eqNear_az_tB

/-- The two-sample equator run: one pass is emitted, and its recorded LOS
azimuth is 0 (the azimuth computed with the rotation of the previous sample
time), not the 180 the look angles give at the LOS sample itself. -/
lemma visPasses_c3_map :
    (visPasses cSwing 0 eqStation (aWgs, 0, 0) 1704064741 1704064771).map
      (fun p => (p.aos_timestamp, p.los_timestamp, p.los_azimuth_deg)) =
      [(1704064741, 1704064771, 0)] := by
  unfold visPasses
  rw [visRun_eq_fold, intGrid_c3]
  simp only [List.foldl_cons, List.foldl_nil]
  rw [visStep_open cSwing_atA (by
    simp only [eqStation, predSide]
    exact look_eqSide_el) rfl]
  rw [visStep_emit cSwing_atB (by
    simp only [eqStation, predNear]
    exact not_le.mpr look_eqNear_el_neg) rfl]
  rw [end_az_c3]
  simp [visInit]


/-! ### Case lemmas for calculate_visibility_passes -/

lemma calculate_visibility_passes_ok {Elements : Type} {from_tle : Except String Elements}
    {from_elements : Elements → Except String Sgp4Constants} {epoch : Elements → ℝ}
    (gs : GroundStation) (s e : ℤ) {el : Elements} {cst : Sgp4Constants}
    (h1 : from_tle = .ok el) (h2 : from_elements el = .ok cst) :
    calculate_visibility_passes from_tle from_elements epoch gs s e =
      .ok (visPasses cst (epoch el) gs
        (geodetic_to_ecef gs.latitude_deg gs.longitude_deg (gs.altitude_m / 1000.0)) s e) := by
  unfold calculate_visibility_passes
  rw [h1]
  dsimp only
  rw [h2]

lemma calculate_visibility_passes_tle_err {Elements : Type} {from_tle : Except String Elements}
    {from_elements : Elements → Except String Sgp4Constants} {epoch : Elements → ℝ}
    (gs : GroundStation) (s e : ℤ) {msg : String} (h1 : from_tle = .error msg) :
    calculate_visibility_passes from_tle from_elements epoch gs s e =
      .error (.tleParseError msg) := by
  unfold calculate_visibility_passes
  rw [h1]

lemma calculate_visibility_passes_init_err {Elements : Type} {from_tle : Except String Elements}
    {from_elements : Elements → Except String Sgp4Constants} {epoch : Elements → ℝ}
    (gs : GroundStation) (s e : ℤ) {el : Elements} {msg : String}
    (h1 : from_tle = .ok el) (h2 : from_elements el = .error msg) :
    calculate_visibility_passes from_tle from_elements epoch gs s e =
      .error (.propagatorError msg) := by
  unfold calculate_visibility_passes
  rw [h1]
  dsimp only
  rw [h2]

/-! ### Claims -/

/-- C1 counterexample: over the window [0, 30] with the north-pole station
(threshold 5 degrees) and an oracle that is above the horizon at sample 0 and
below at sample 30, `calculate_visibility_passes` emits exactly one pass with
AOS = 0, TCA = 0 and LOS = 30; since TCA = AOS, the claimed strict inequality
AOS < TCA is false on this run. -/
theorem C1_counterexample :
    calculate_visibility_passes (Except.ok ()) (fun _ : Unit => Except.ok cUpDown)
      (fun _ => (0:ℝ)) npStation 0 30 = Except.ok [⟨0, 30, 0, 90, 0, 0, 30⟩] ∧
    ¬ ((0:ℤ) < 0) := by
  constructor
  · rw [@calculate_visibility_passes_ok Unit (Except.ok ()) (fun _ => Except.ok cUpDown)
      (fun _ => (0:ℝ)) npStation 0 30 () cUpDown rfl rfl, npStation_gse, visPasses_c1]
  · norm_num

/-- C1 (amended): every pass emitted by `calculate_visibility_passes` satisfies
AOS ≤ TCA ≤ LOS (with AOS = TCA when the maximum elevation is attained at the
first sample of the pass), max elevation at least the station threshold, AOS
and LOS azimuths in [0, 360) degrees, and the emitted passes are pairwise
non-overlapping, in ascending AOS order. -/
theorem C1_pass_invariants {Elements : Type} (from_tle : Except String Elements)
    (from_elements : Elements → Except String Sgp4Constants)
    (epoch : Elements → ℝ) (gs : GroundStation) (s e : ℤ) (l : List VisibilityPass)
    (hok : calculate_visibility_passes from_tle from_elements epoch gs s e = .ok l) :
    (∀ p ∈ l,
      p.aos_timestamp ≤ p.tca_timestamp ∧ p.tca_timestamp ≤ p.los_timestamp ∧
      gs.min_elevation_deg ≤ p.max_elevation_deg ∧
      p.aos_azimuth_deg ∈ Set.Ico (0:ℝ) 360 ∧ p.los_azimuth_deg ∈ Set.Ico (0:ℝ) 360) ∧
    l.Pairwise (fun p q => p.los_timestamp < q.aos_timestamp) := by
  cases hft : from_tle with
  | error msg =>
      rw [calculate_visibility_passes_tle_err gs s e hft] at hok
      exact absurd hok (by simp)
  | ok el =>
      cases hfe : from_elements el with
      | error msg =>
          rw [calculate_visibility_passes_init_err gs s e hft hfe] at hok
          exact absurd hok (by simp)
      | ok cst =>
          rw [calculate_visibility_passes_ok gs s e hft hfe] at hok
          simp only [Except.ok.injEq] at hok
          subst hok
          obtain ⟨hgood, hpw⟩ := visPasses_good cst (epoch el) gs
            (geodetic_to_ecef gs.latitude_deg gs.longitude_deg (gs.altitude_m / 1000.0)) s e
          exact ⟨fun p hp => hgood p hp, hpw⟩

/-- Witness for C1: on the up-then-down north-pole run the amended invariants
hold of the emitted pass (0, 30, 0, 90, 0, 0, 30). -/
theorem C1_pass_invariants_witness :
    npStation.min_elevation_deg ≤
      ((⟨0, 30, 0, 90, 0, 0, 30⟩ : VisibilityPass)).max_elevation_deg ∧
    ([(⟨0, 30, 0, 90, 0, 0, 30⟩ : VisibilityPass)]).Pairwise
      (fun p q => p.los_timestamp < q.aos_timestamp) := by
  have h := C1_pass_invariants (Except.ok ()) (fun _ : Unit => Except.ok cUpDown)
    (fun _ => (0:ℝ)) npStation 0 30 [⟨0, 30, 0, 90, 0, 0, 30⟩]
    (by rw [@calculate_visibility_passes_ok Unit (Except.ok ()) (fun _ => Except.ok cUpDown)
      (fun _ => (0:ℝ)) npStation 0 30 () cUpDown rfl rfl, npStation_gse, visPasses_c1])
  exact ⟨(h.1 _ (List.mem_singleton_self _)).2.2.1, h.2⟩

/-- C2: with start ≤ end, step ≥ 1, and every per-sample propagation
succeeding, the trajectory sweep returns exactly ⌊(e-s)/h⌋+1 entries, whose
timestamps are the grid s, s+h, s+2h, ..., strictly ascending with consecutive
differences exactly h, and the end timestamp e appears among them iff h divides
e - s. -/
theorem C2_trajectory_grid (c : Sgp4Constants) (ep : ℝ) (s e h : ℤ)
    (hse : s ≤ e) (hh : 0 < h)
    (hsucc : ∀ t ∈ intGrid s e h, (sampleResult c ep t).isSome) :
    (trajRun c ep s e h).length = ((e - s).tdiv h).toNat + 1 ∧
    (trajRun c ep s e h).map Prod.fst = intGrid s e h ∧
    List.Chain' (fun a b => a < b ∧ b = a + h) ((trajRun c ep s e h).map Prod.fst) ∧
    (e ∈ (trajRun c ep s e h).map Prod.fst ↔ h ∣ (e - s)) := by
  obtain ⟨hmap, hlen⟩ := trajRun_all_some c ep s e h hsucc
  refine ⟨?_, hmap, ?_, ?_⟩
  · rw [hlen, intGrid_length]
    unfold tripCount
    rw [if_pos hse]
  · rw [hmap]
    exact intGrid_chain_diff s e h hh
  · rw [hmap]
    exact intGrid_mem_end_iff s e h hse hh

/-- Witness for C2: with an always-succeeding oracle over [0, 100] at step 30
the sweep has 4 entries at the grid timestamps. -/
theorem C2_trajectory_grid_witness :
    (trajRun cAbove 0 0 100 30).length = 4 ∧
    (trajRun cAbove 0 0 100 30).map Prod.fst = intGrid 0 100 30 := by
  have h := C2_trajectory_grid cAbove 0 0 100 30 (by norm_num) (by norm_num)
    (fun t _ => by simp [sampleResult, cAbove])
  refine ⟨?_, h.2.1⟩
  rw [h.1]
  decide

/-- C3 counterexample: in the equator run, the pass emitted at the IN-to-OUT
transition at sample 1704064771 records LOS azimuth 0 (computed with the
Earth-rotation time of the previous sample), while the look-angle azimuth at
the transition sample itself is 180; the claim that the emitted LOS azimuth
equals the azimuth at the sample time is false there. -/
theorem C3_counterexample :
    (visPasses cSwing 0 eqStation (aWgs, 0, 0) 1704064741 1704064771).map
      (fun p => (p.aos_timestamp, p.los_timestamp, p.los_azimuth_deg)) =
      [(1704064741, 1704064771, 0)] ∧
    (calculate_look_angles predNear.position (aWgs, 0, 0) eqStation.latitude_deg
      eqStation.longitude_deg 1704064771).2 = 180 ∧
    (0:ℝ) ≠ 180 :=
  ⟨visPasses_c3_map, a_i_c3, by norm_num⟩

/-- C3 (amended): at an IN-to-OUT transition at sample t the emitted pass has
LOS = t and duration = LOS - AOS as claimed, but its LOS azimuth is the
azimuth computed from the satellite position at t with the rotation time
t - step (the previous sample time), not the azimuth at t itself. -/
theorem C3_emit_shape (c : Sgp4Constants) (ep : ℝ) (gs : GroundStation)
    (gse : ℝ × ℝ × ℝ) (step t : ℤ) (st : VisState) (pred : Prediction)
    (hp : c.propagateAt (((t : ℝ) - ep) / 60.0) = some pred)
    (hin : st.in_pass = true)
    (hbelow : ¬ gs.min_elevation_deg ≤
      (calculate_look_angles pred.position gse gs.latitude_deg gs.longitude_deg t).1) :
    visStep c ep gs gse step t st =
      { st with
        in_pass := false
        passes := st.passes ++
          [⟨st.current_pass_start, t, st.tca_timestamp, st.max_elevation,
            st.current_pass_start_azimuth,
            (calculate_look_angles pred.position gse gs.latitude_deg gs.longitude_deg
              (t - step)).2,
            t - st.current_pass_start⟩] } :=
  visStep_emit hp hbelow hin

/-- Witness for C3: a concrete IN-to-OUT transition at the north-pole station,
with the emitted pass fully evaluated. -/
theorem C3_emit_shape_witness :
    visStep cUpDown 0 npStation (0, 0, npZ) 30 30 ⟨true, 0, 0, 90, 0, []⟩ =
      ⟨false, 0, 0, 90, 0, [⟨0, 30, 0, 90, 0, 0, 30⟩]⟩ := by
  have h := C3_emit_shape cUpDown 0 npStation (0, 0, npZ) 30 30 ⟨true, 0, 0, 90, 0, []⟩
    predDown cUpDown_at30 rfl
    (by rw [look_np_down_at]; simp [npStation]; norm_num)
  rw [h, look_np_down_at]
  norm_num

/-- C4: the look-angle computation has no small-range guard. With the satellite
0.5 km directly below the pole station (topocentric range 0.5 km, inside the
claimed 1 km edge case), it returns elevation -90 and azimuth 0 through the
ordinary arcsin/atan2 path, not the claimed elevation 90 / azimuth 0. -/
theorem C4_no_range_guard :
    calculate_look_angles (0, 0, npZ - 1/2) (0, 0, npZ) 90 0 0 = (-90, 0) ∧
    Real.sqrt ((npZ - 1/2 - npZ) * (npZ - 1/2 - npZ)) = 1/2 ∧
    ((1:ℝ)/2 < 1) ∧ ((-90:ℝ) ≠ 90) := by
  refine ⟨look_np_below (by linarith) 0, ?_, by norm_num, by norm_num⟩
  rw [Real.sqrt_mul_self_eq_abs, show npZ - 1/2 - npZ = -(1/2:ℝ) from by ring,
    abs_neg, abs_of_nonneg (by norm_num : (0:ℝ) ≤ 1/2)]

/-- C5: the gRPC trajectory handler rejects a nonpositive step and an excessive
sample count before propagation, but the HTTP trajectory handler checks
neither: a request with step_seconds = 0 (and one with 1000001 samples) passes
HTTP validation and is handed to the propagator. -/
theorem C5_http_missing_validation :
    httpTrajectoryValidate httpReqStep0 = none ∧
    trajectory_handler (Except.ok ()) (fun _ : Unit => Except.ok cAbove) (fun _ => (0:ℝ))
      httpReqStep0 =
      .ok (propagate_trajectory (Except.ok ()) (fun _ : Unit => Except.ok cAbove)
        (fun _ => (0:ℝ)) 0 100 0) ∧
    grpcTrajectoryValidate grpcReqStep0 = some .stepNotPositive ∧
    httpTrajectoryValidate httpReqBig = none ∧
    grpcTrajectoryValidate grpcReqBig = some .tooManyPoints :=
  ⟨httpValidate_step0, trajectory_handler_step0 _ _ _, grpcValidate_step0,
   httpValidate_big, grpcValidate_big⟩

/-- C6: the trajectory sweep errors exactly on TLE-parse failure or SGP4-init
failure; on successful init it returns Ok with precisely the successful samples
of the grid, whose timestamps are strictly ascending (possibly empty). -/
theorem C6_trajectory_errors {Elements : Type} (from_tle : Except String Elements)
    (from_elements : Elements → Except String Sgp4Constants)
    (epoch : Elements → ℝ) (s e h : ℤ) (hh : 0 < h) :
    (∀ msg, from_tle = .error msg →
      propagate_trajectory from_tle from_elements epoch s e h =
        .error (.tleParseError msg)) ∧
    (∀ el msg, from_tle = .ok el → from_elements el = .error msg →
      propagate_trajectory from_tle from_elements epoch s e h =
        .error (.propagatorError msg)) ∧
    (∀ el cst, from_tle = .ok el → from_elements el = .ok cst →
      propagate_trajectory from_tle from_elements epoch s e h =
        .ok ((intGrid s e h).filterMap (sampleResult cst (epoch el))) ∧
      ((((intGrid s e h).filterMap (sampleResult cst (epoch el))).map Prod.fst).Pairwise
        (· < ·))) := by
  refine ⟨fun msg h1 => propagate_trajectory_tle_err s e h h1,
    fun el msg h1 h2 => propagate_trajectory_init_err s e h h1 h2,
    fun el cst h1 h2 => ⟨?_, ?_⟩⟩
  · rw [propagate_trajectory_ok s e h h1 h2, trajRun_eq_filterMap]
  · rw [← trajRun_eq_filterMap]
    exact trajRun_fst_pairwise cst (epoch el) s e h hh

/-- Witness for C6: the Ok case evaluated at a concrete parser, initializer and
oracle. -/
theorem C6_trajectory_errors_witness :
    propagate_trajectory (Except.ok ()) (fun _ : Unit => Except.ok cAbove) (fun _ => (0:ℝ))
      0 100 30 = .ok ((intGrid 0 100 30).filterMap (sampleResult cAbove 0)) := by
  have h := C6_trajectory_errors (Except.ok ()) (fun _ : Unit => Except.ok cAbove)
    (fun _ => (0:ℝ)) 0 100 30 (by norm_num)
  exact (h.2.2 () cAbove rfl rfl).1

/-- C7: `calculate_gmst` computes exactly the spec formula (Julian date from
the Unix timestamp, Julian centuries, the cubic polynomial in degrees, a
reduction modulo 360 into [0, 360), conversion to radians) and its value always
lies in [0, 2π). -/
theorem C7_gmst (ts : ℤ) :
    calculate_gmst ts = gmst_spec ts ∧ calculate_gmst ts ∈ Set.Ico 0 (2 * π) :=
  ⟨calculate_gmst_eq_spec ts, calculate_gmst_mem ts⟩

/-- C9: when the window ends while the state machine is IN, exactly one final
pass is appended, with LOS = the window end, LOS azimuth 0.0, duration =
end - AOS, and the TCA and maximum elevation accumulated in the loop state. -/
theorem C9_end_of_window (c : Sgp4Constants) (ep : ℝ) (gs : GroundStation)
    (gse : ℝ × ℝ × ℝ) (s e : ℤ)
    (h : (visRun c ep gs gse s e).in_pass = true) :
    visPasses c ep gs gse s e =
      (visRun c ep gs gse s e).passes ++
        [⟨(visRun c ep gs gse s e).current_pass_start, e,
          (visRun c ep gs gse s e).tca_timestamp,
          (visRun c ep gs gse s e).max_elevation,
          (visRun c ep gs gse s e).current_pass_start_azimuth, 0.0,
          e - (visRun c ep gs gse s e).current_pass_start⟩] :=
  visPasses_of_in_pass h

/-- Witness for C9: the degenerate window [0, 0] with an always-above oracle
ends IN, and the sweep output is the single final pass. -/
theorem C9_end_of_window_witness :
    visPasses cAbove 0 npStation (0, 0, npZ) 0 0 = [⟨0, 0, 0, 90, 0, 0, 0⟩] := by
  have h := C9_end_of_window cAbove 0 npStation (0, 0, npZ) 0 0 (by rw [visRun_c9])
  rw [h, visRun_c9]
  norm_num

/-- C10: the core sampling loop validates nothing about its step: with step ≥ 1
its guard fails after finitely many iterations (the loop terminates), and with
step ≤ 0 and start ≤ end the guard `timestamp ≤ end` holds after every number
of iterations, so the loop never exits. -/
theorem C10_loop_termination (c : Sgp4Constants) (ep : ℝ) (s e h : ℤ) (hse : s ≤ e) :
    (1 ≤ h → ∃ n : ℕ, ¬ (((trajStep c ep h)^[n] (s, [])).1 ≤ e)) ∧
    (h ≤ 0 → ∀ n : ℕ, ((trajStep c ep h)^[n] (s, [])).1 ≤ e) :=
  ⟨fun hh => ⟨tripCount s e h, traj_loop_exits c ep hse hh⟩,
   fun hh n => traj_loop_never_exits c ep hse hh n⟩

/-- Witness for C10: with step 1 on the window [0, 0] the loop exits; with
step -1 the guard still holds after 5 iterations. -/
theorem C10_loop_termination_witness :
    (∃ n : ℕ, ¬ (((trajStep cAbove 0 1)^[n] ((0:ℤ), [])).1 ≤ (0:ℤ))) ∧
    ((trajStep cAbove 0 (-1))^[5] ((0:ℤ), [])).1 ≤ (0:ℤ) := by
  have h1 := C10_loop_termination cAbove 0 0 0 1 (by norm_num)
  have h2 := C10_loop_termination cAbove 0 0 0 (-1) (by norm_num)
  exact ⟨h1.1 (by norm_num), h2.2 (by norm_num) 5⟩

end
